import Mathlib

/-!
Shallow embedding of quicly's Reno congestion controller (src/lib/cc-reno.c)
and proofs about its operations.

Conventions of the embedding:
- `uint32_t` fields and arithmetic are modelled as `Nat` reduced mod 2^32 at
  every store (`u32`); `uint64_t` packet numbers are `Nat` (the code only
  compares and copies them, so no wrap can occur).
- The `quicly_loss_t *loss` and `int64_t now` parameters of the C callbacks are
  unused by the Reno implementation and are omitted.
- `quicly_cc__update_ecn_episodes` is an external collaborator; `on_lost`
  returns, besides the new state, the `(bytes, lost_pn)` pair it passes to that
  notifier.
- Nat division by zero is 0 in Lean whereas it is undefined in C; no theorem
  below relies on a division by zero.
-/

/-- Truncation to 32 bits, the effect of storing into a `uint32_t`. -/
def u32 (x : Nat) : Nat := x % 4294967296

/-- Wrapping 32-bit subtraction `(a - b) mod 2^32` for `a b < 2^32`. -/
def u32sub (a b : Nat) : Nat := (a + 4294967296 - b % 4294967296) % 4294967296

/-- Sentinel `UINT32_MAX` used for `ssthresh` and `cwnd_minimum`. -/
def UINT32_MAX : Nat := 4294967295

/-- Sentinel `UINT64_MAX` used for `jumpstart.enter_pn`. -/
def UINT64_MAX : Nat := 18446744073709551615

/-- Modelled from the spec: `QUICLY_MIN_CWND`, the configured minimum
congestion window in packets (`min_cwnd_packets`); its defining header is not
among the sources, the upstream value is 2 packets. -/
def QUICLY_MIN_CWND : Nat := 2

/-- Modelled from the spec: encoding of `QUICLY_PACER_CALC_MULTIPLIER(1)`, the
jumpstart pacing rate. The spec fixes only that the three multipliers are
distinct values comparable for exact equality, so they are encoded in tenths. -/
def pacerMult1 : Nat := 10

/-- Modelled from the spec: encoding of `QUICLY_PACER_CALC_MULTIPLIER(1.2)`,
the post-loss pacing rate. -/
def pacerMult12 : Nat := 12

/-- Modelled from the spec: encoding of `QUICLY_PACER_CALC_MULTIPLIER(2)`, the
slow-start pacing rate. -/
def pacerMult2 : Nat := 20

/-- Modelled from the spec: `QUICLY_RENO_BETA`, the fixed multiplicative
decrease fraction (upstream 0.7), taken as the exact rational 7/10.
`mulBeta x` is the store of `x * QUICLY_RENO_BETA` into a `uint32_t`. -/
def mulBeta (x : Nat) : Nat := x * 7 / 10

/-- Modelled from the spec: division by `QUICLY_RENO_BETA` = 7/10 followed by
the store into a `uint32_t` (exact rational model of `x / 0.7`). -/
def divBeta (x : Nat) : Nat := u32 (x * 10 / 7)

/-- Tag of the active congestion-control variant (`cc->type`); `other` stands
for any variant besides the three the switch coordinator recognizes. -/
inductive CCType where
  | reno
  | pico
  | cubic
  | other
deriving Repr, DecidableEq

/-- The congestion-controller state `quicly_cc_t`, restricted to the fields
the Reno implementation reads or writes. `stash` is the first member of both
the `reno` and the `pico` arm of the state union, so one field models both.
`enter_pn`, `exit_pn` and `bytes_acked` are `state.reno.jumpstart`. -/
structure CC where
  type : CCType
  cwnd : Nat
  cwnd_initial : Nat
  cwnd_minimum : Nat
  cwnd_maximum : Nat
  cwnd_exiting_slow_start : Nat
  ssthresh : Nat
  recovery_end : Nat
  pacer_multiplier : Nat
  num_loss_episodes : Nat
  stash : Nat
  enter_pn : Nat
  exit_pn : Nat
  bytes_acked : Nat
deriving Repr, DecidableEq

/-- `reno_reset`: zero the record, then set the documented initial values. -/
def reno_reset (initcwnd : Nat) : CC :=
  { type := CCType.reno
    cwnd := initcwnd
    cwnd_initial := initcwnd
    cwnd_minimum := UINT32_MAX
    cwnd_maximum := initcwnd
    cwnd_exiting_slow_start := 0
    ssthresh := UINT32_MAX
    recovery_end := 0
    pacer_multiplier := pacerMult2
    num_loss_episodes := 0
    stash := 0
    enter_pn := UINT64_MAX
    exit_pn := 0
    bytes_acked := 0 }

/-- `reno_on_acked` from src/lib/cc-reno.c. -/
def reno_on_acked (cc : CC) (bytes largest_acked inflight next_pn : Nat)
    (max_udp_payload_size : Nat) : CC :=
  -- do not grow the window in recovery, except for jumpstart acknowledgments
  if largest_acked < cc.recovery_end then
    if largest_acked < cc.exit_pn then
      { cc with cwnd := u32 (cc.cwnd + bytes) }
    else
      cc
  else
    -- jumpstart accounting
    let cc :=
      if cc.enter_pn ≤ largest_acked ∧ largest_acked < cc.exit_pn then
        { cc with bytes_acked := u32 (cc.bytes_acked + bytes) }
      else
        cc
    -- first ack at the jumpstart pacing rate: exit jumpstart, adopt inflight
    let cc :=
      if cc.pacer_multiplier = pacerMult1 ∧ cc.enter_pn ≤ largest_acked then
        { cc with
            cwnd := inflight
            exit_pn := next_pn
            pacer_multiplier := pacerMult2 }
      else
        cc
    if cc.cwnd < cc.ssthresh then
      -- slow start
      let cwnd1 := u32 (cc.cwnd + bytes)
      { cc with
          cwnd := cwnd1
          cwnd_maximum := if cc.cwnd_maximum < cwnd1 then cwnd1 else cc.cwnd_maximum }
    else
      -- congestion avoidance
      let stash1 := u32 (cc.stash + bytes)
      if stash1 < cc.cwnd then
        { cc with stash := stash1 }
      else
        let count := stash1 / cc.cwnd
        let cwnd1 := u32 (cc.cwnd + u32 (count * max_udp_payload_size))
        { cc with
            stash := u32sub stash1 (u32 (count * cc.cwnd))
            cwnd := cwnd1
            cwnd_maximum := if cc.cwnd_maximum < cwnd1 then cwnd1 else cc.cwnd_maximum }

/-- `quicly_cc_reno_on_lost` from src/lib/cc-reno.c; the second component of
the result is the `(bytes, lost_pn)` notification handed to the external ECN
episode tracker `quicly_cc__update_ecn_episodes`. -/
def quicly_cc_reno_on_lost (cc : CC) (bytes lost_pn next_pn : Nat)
    (max_udp_payload_size : Nat) : CC × (Nat × Nat) :=
  let ecn := (bytes, lost_pn)
  -- nothing to do if the loss is in the recovery window
  if lost_pn < cc.recovery_end then
    (cc, ecn)
  else
    let cc := { cc with recovery_end := next_pn, pacer_multiplier := pacerMult12 }
    -- loss before all jumpstart acks arrived: restore the pre-jumpstart basis
    let cc :=
      if cc.ssthresh = UINT32_MAX ∧ lost_pn < cc.exit_pn then
        { cc with cwnd := divBeta cc.bytes_acked }
      else
        cc
    let cc := { cc with num_loss_episodes := u32 (cc.num_loss_episodes + 1) }
    let cc :=
      if cc.cwnd_exiting_slow_start = 0 then
        { cc with cwnd_exiting_slow_start := cc.cwnd }
      else
        cc
    -- multiplicative decrease, floored at the minimum window
    let cwnd1 := mulBeta cc.cwnd
    let minw := u32 (QUICLY_MIN_CWND * max_udp_payload_size)
    let cwnd2 := if cwnd1 < minw then minw else cwnd1
    let cc := { cc with cwnd := cwnd2, ssthresh := cwnd2 }
    let cc :=
      if cc.cwnd_minimum > cc.cwnd then { cc with cwnd_minimum := cc.cwnd } else cc
    (cc, ecn)

/-- `reno_enter_jumpstart` from src/lib/cc-reno.c. -/
def reno_enter_jumpstart (cc : CC) (jump_cwnd next_pn : Nat) : CC :=
  if jump_cwnd ≤ u32 (cc.cwnd * 2) then
    cc
  else
    { cc with
        enter_pn := next_pn
        cwnd := jump_cwnd
        pacer_multiplier := pacerMult1 }

/-- `reno_on_switch` from src/lib/cc-reno.c; `true` is the C return value 1
(switch performed), `false` is 0 (switch not supported). The copy of
`state.pico.stash` into `state.reno.stash` is the identity here because the
two union arms share the field in this model. -/
def reno_on_switch (cc : CC) : CC × Bool :=
  match cc.type with
  | CCType.reno => (cc, true)
  | CCType.pico => ({ cc with type := CCType.reno }, true)
  | CCType.cubic =>
      if cc.cwnd_exiting_slow_start = 0 then
        ({ cc with type := CCType.reno }, true)
      else
        (reno_reset cc.cwnd_initial, true)
  | CCType.other => (cc, false)

/-- `quicly_cc_calc_initial_cwnd` from src/lib/cc-reno.c. -/
def quicly_cc_calc_initial_cwnd (max_packets max_udp_payload_size : Nat) : Nat :=
  let mtu_max := 1472
  let p := if max_packets < QUICLY_MIN_CWND then QUICLY_MIN_CWND else max_packets
  let m := if max_udp_payload_size > mtu_max then mtu_max else max_udp_payload_size
  u32 (p * m)

/-- One acknowledgment event: the arguments of a `reno_on_acked` call apart
from the MTU, which is held fixed along a run. -/
structure AckEv where
  bytes : Nat
  largest_acked : Nat
  inflight : Nat
  next_pn : Nat
deriving Repr, DecidableEq

/-- Folding a list of acknowledgment events through `reno_on_acked`. -/
def runAcked (mtu : Nat) : CC → List AckEv → CC
  | cc, [] => cc
  | cc, e :: es =>
      runAcked mtu (reno_on_acked cc e.bytes e.largest_acked e.inflight e.next_pn mtu) es

/-- An acknowledgment processed entirely by the slow-start branch: not in
recovery, jumpstart inactive (pacing not at the jumpstart rate, packet number
outside the jumpstart window), below `ssthresh`, and no 32-bit wrap. -/
def SlowStartStep (cc : CC) (e : AckEv) : Prop :=
  cc.recovery_end ≤ e.largest_acked
  ∧ cc.pacer_multiplier ≠ pacerMult1
  ∧ ¬ (cc.enter_pn ≤ e.largest_acked ∧ e.largest_acked < cc.exit_pn)
  ∧ cc.cwnd < cc.ssthresh
  ∧ cc.cwnd + e.bytes < 4294967296

instance instDecSlowStartStep (cc : CC) (e : AckEv) : Decidable (SlowStartStep cc e) := by
  unfold SlowStartStep
  infer_instance

/-- Every event of the list is a slow-start acknowledgment for the state
reached at that point of the run. -/
def SlowStartRun (mtu : Nat) : CC → List AckEv → Prop
  | _, [] => True
  | cc, e :: es =>
      SlowStartStep cc e
      ∧ SlowStartRun mtu (reno_on_acked cc e.bytes e.largest_acked e.inflight e.next_pn mtu) es

instance instDecSlowStartRun (mtu : Nat) : (cc : CC) → (evs : List AckEv) →
    Decidable (SlowStartRun mtu cc evs)
  | _, [] => Decidable.isTrue trivial
  | cc, e :: es =>
      @instDecidableAnd _ _ (instDecSlowStartStep cc e)
        (instDecSlowStartRun mtu (reno_on_acked cc e.bytes e.largest_acked e.inflight e.next_pn mtu) es)

/-- Concrete state inside a recovery window whose jumpstart exit boundary is 4,
used to instantiate the recovery-path theorems. -/
def ccRecovery : CC := { reno_reset 14720 with recovery_end := 10, exit_pn := 4 }
/-- Concrete state inside a recovery window with jumpstart never exited. -/
def ccRec6 : CC := { reno_reset 14720 with recovery_end := 10 }
/-- Concrete state whose active variant is none of Reno, Pico, Cubic. -/
def ccOther : CC := { reno_reset 14720 with type := CCType.other }
/-- The congestion window `quicly_cc_reno_on_lost` computes on an actionable
loss: the jumpstart-restore base, the beta decrease, and the minimum floor. -/
def renoLostCwnd (cc : CC) (lost_pn mtu : Nat) : Nat :=
  let base := if cc.ssthresh = UINT32_MAX ∧ lost_pn < cc.exit_pn
              then divBeta cc.bytes_acked else cc.cwnd
  let cwnd1 := mulBeta base
  let minw := u32 (QUICLY_MIN_CWND * mtu)
  if cwnd1 < minw then minw else cwnd1
/-- State reached by jumpstart entry, exit, and an acknowledgment inside the
jumpstart accounting window; the pending `bytes_acked` makes the next loss
restore rather than beta-decrease the window. -/
def ccC1 : CC :=
  reno_on_acked
    (reno_on_acked (reno_enter_jumpstart (reno_reset 14720) 30000 5) 1000 5 25000 40 1472)
    20000 6 20000 41 1472
/-- State with the jumpstart accounting interval closed at packet 40, 10000
bytes acknowledged during jumpstart, still in unconfirmed slow start. -/
def ccC3 : CC := { reno_reset 14720 with exit_pn := 40, bytes_acked := 10000 }

/-- The jumpstart accounting step of `reno_on_acked`: credit `bytes` to
`bytes_acked` when `largest_acked` falls in `[enter_pn, exit_pn)`. -/
def jumpstartAccount (cc : CC) (bytes largest_acked : Nat) : CC :=
  if cc.enter_pn ≤ largest_acked ∧ largest_acked < cc.exit_pn then
    { cc with bytes_acked := u32 (cc.bytes_acked + bytes) }
  else
    cc

/-- The jumpstart exit step of `reno_on_acked`: the first acknowledgment
received at the jumpstart pacing rate adopts `inflight` as cwnd, closes the
accounting interval at `next_pn` and reverts to slow-start pacing. -/
def jumpstartExitStep (cc : CC) (inflight next_pn largest_acked : Nat) : CC :=
  if cc.pacer_multiplier = pacerMult1 ∧ cc.enter_pn ≤ largest_acked then
    { cc with
        cwnd := inflight
        exit_pn := next_pn
        pacer_multiplier := pacerMult2 }
  else
    cc

/-- The window growth step of `reno_on_acked`: slow start below `ssthresh`,
congestion avoidance at or above it. -/
def renoGrow (cc : CC) (bytes mtu : Nat) : CC :=
  if cc.cwnd < cc.ssthresh then
    let cwnd1 := u32 (cc.cwnd + bytes)
    { cc with
        cwnd := cwnd1
        cwnd_maximum := if cc.cwnd_maximum < cwnd1 then cwnd1 else cc.cwnd_maximum }
  else
    let stash1 := u32 (cc.stash + bytes)
    if stash1 < cc.cwnd then
      { cc with stash := stash1 }
    else
      let count := stash1 / cc.cwnd
      let cwnd1 := u32 (cc.cwnd + u32 (count * mtu))
      { cc with
          stash := u32sub stash1 (u32 (count * cc.cwnd))
          cwnd := cwnd1
          cwnd_maximum := if cc.cwnd_maximum < cwnd1 then cwnd1 else cc.cwnd_maximum }

/-- State violating the minimum-window invariant, reached from a freshly
calculated initial window through jumpstart entry and the jumpstart-exit
acknowledgment that adopts a small `inflight` as cwnd. -/
def ccC4 : CC :=
  reno_on_acked
    (reno_enter_jumpstart (reno_reset (quicly_cc_calc_initial_cwnd 10 1472)) 30000 5)
    100 5 100 6 1472

/-- Congestion-avoidance state with stash 10000 built by one loss (ssthresh
10304) and one accumulating acknowledgment. -/
def ccC7 : CC :=
  reno_on_acked (quicly_cc_reno_on_lost (reno_reset 14720) 100 0 1 1472).1
    10000 5 10000 6 1472

/-- The slow-start scenario of the spec: three acknowledgments of 1472 bytes
on a fresh instance. -/
def evsC2 : List AckEv :=
  [⟨1472, 0, 2000, 1⟩, ⟨1472, 1, 2000, 2⟩, ⟨1472, 2, 2000, 3⟩]

/-- Congestion-avoidance state: cwnd = ssthresh = 10304 with 9000 bytes
stashed. -/
def ccC2 : CC :=
  { reno_reset 14720 with ssthresh := 10304, cwnd := 10304, stash := 9000 }


theorem u32_eq_of_lt {x : Nat} (h : x < 4294967296) : u32 x = x :=
  Nat.mod_eq_of_lt h

theorem u32_le (x : Nat) : u32 x ≤ x :=
  Nat.mod_le x 4294967296

theorem u32sub_eq {a b : Nat} (ha : a < 4294967296) (hba : b ≤ a) :
    u32sub a b = a - b := by
  unfold u32sub
  omega

/-- Dividing by beta = 7/10 and multiplying back, both with truncation, loses
at most one byte: the composite is the identity exactly on multiples of 7. -/
theorem beta_roundtrip (a : Nat) (h : a * 10 / 7 < 4294967296) :
    mulBeta (divBeta a) = if a % 7 = 0 then a else a - 1 := by
  unfold mulBeta divBeta u32
  rw [Nat.mod_eq_of_lt h]
  have hd1 := Nat.div_add_mod (a * 10) 7
  have hm1 : a * 10 % 7 < 7 := Nat.mod_lt _ (by omega)
  have hd2 := Nat.div_add_mod (a * 10 / 7 * 7) 10
  have hm2 : a * 10 / 7 * 7 % 10 < 10 := Nat.mod_lt _ (by omega)
  split
  · -- a multiple of 7: the roundtrip is exact
    rename_i h7
    obtain ⟨u, rfl⟩ : ∃ u, a = 7 * u := ⟨a / 7, by omega⟩
    rw [show 7 * u * 10 = 7 * (10 * u) by ring, Nat.mul_div_cancel_left _ (by norm_num),
      show 10 * u * 7 = 10 * (7 * u) by ring, Nat.mul_div_cancel_left _ (by norm_num)]
  · -- otherwise exactly one byte is lost
    rename_i h7
    have hne : a * 10 / 7 * 7 / 10 ≠ a := by
      intro he
      have hdvd : (7 : Nat) ∣ a * 10 := ⟨a * 10 / 7, by omega⟩
      have : (7 : Nat) ∣ a :=
        Nat.Coprime.dvd_of_dvd_mul_right (by decide) hdvd
      omega
    omega

/-- The C idiom for a running maximum is `max`. -/
theorem if_lt_eq_max (a b : Nat) : (if a < b then b else a) = max a b := by
  split <;> omega

/-- A slow-start acknowledgment adds the acknowledged bytes to `cwnd`, updates
the running maximum, and changes nothing else. -/
theorem reno_on_acked_slow_start (cc : CC) (bytes largest_acked inflight next_pn mtu : Nat)
    (h1 : cc.recovery_end ≤ largest_acked)
    (h2 : cc.pacer_multiplier ≠ pacerMult1)
    (h3 : ¬ (cc.enter_pn ≤ largest_acked ∧ largest_acked < cc.exit_pn))
    (h4 : cc.cwnd < cc.ssthresh)
    (h5 : cc.cwnd + bytes < 4294967296) :
    reno_on_acked cc bytes largest_acked inflight next_pn mtu
      = { cc with
            cwnd := cc.cwnd + bytes
            cwnd_maximum := max cc.cwnd_maximum (cc.cwnd + bytes) } := by
  have hjx : ¬ (cc.pacer_multiplier = pacerMult1 ∧ cc.enter_pn ≤ largest_acked) :=
    fun hc => h2 hc.1
  simp only [reno_on_acked]
  rw [if_neg (Nat.not_lt.mpr h1), if_neg h3, if_neg hjx, if_pos h4,
    u32_eq_of_lt h5, if_lt_eq_max]




/-- C5: an `on_acked` call with `largest_acked < recovery_end` returns without
reaching the slow-start or congestion-avoidance logic; if `largest_acked` is
also below the jumpstart exit boundary `exit_pn` the call adds exactly `bytes`
to `cwnd`, otherwise it changes nothing; in both cases every other field is
unchanged. -/
theorem C5_on_acked_in_recovery (cc : CC) (bytes largest_acked inflight next_pn mtu : Nat)
    (hrec : largest_acked < cc.recovery_end) :
    (largest_acked < cc.exit_pn →
      reno_on_acked cc bytes largest_acked inflight next_pn mtu
        = { cc with cwnd := u32 (cc.cwnd + bytes) }
      ∧ (cc.cwnd + bytes < 4294967296 →
          (reno_on_acked cc bytes largest_acked inflight next_pn mtu).cwnd
            = cc.cwnd + bytes))
    ∧ (cc.exit_pn ≤ largest_acked →
        reno_on_acked cc bytes largest_acked inflight next_pn mtu = cc) := by
  constructor
  · intro hx
    have he : reno_on_acked cc bytes largest_acked inflight next_pn mtu
        = { cc with cwnd := u32 (cc.cwnd + bytes) } := by
      simp only [reno_on_acked]
      rw [if_pos hrec, if_pos hx]
    exact ⟨he, fun hov => by rw [he]; exact u32_eq_of_lt hov⟩
  · intro hx
    simp only [reno_on_acked]
    rw [if_pos hrec, if_neg (Nat.not_lt.mpr hx)]

/-- C5 witness: both recovery branches exercised on a concrete state. -/
theorem C5_witness :
    (reno_on_acked ccRecovery 100 3 500 20 1472).cwnd = 14820
    ∧ reno_on_acked ccRecovery 100 5 500 20 1472 = ccRecovery := by
  have h3 := C5_on_acked_in_recovery ccRecovery 100 3 500 20 1472 (by decide)
  have h5 := C5_on_acked_in_recovery ccRecovery 100 5 500 20 1472 (by decide)
  refine ⟨?_, h5.2 (by decide)⟩
  have hc := (h3.1 (by decide)).2 (by decide)
  rw [hc]
  rfl

/-- C6: every `on_lost` call forwards `(bytes, lost_pn)` to the external ECN
episode notifier, and when `lost_pn < recovery_end` the state is returned
entirely unchanged. -/
theorem C6_on_lost_ecn_always (cc : CC) (bytes lost_pn next_pn mtu : Nat) :
    (quicly_cc_reno_on_lost cc bytes lost_pn next_pn mtu).2 = (bytes, lost_pn)
    ∧ (lost_pn < cc.recovery_end →
        (quicly_cc_reno_on_lost cc bytes lost_pn next_pn mtu).1 = cc) := by
  constructor
  · simp only [quicly_cc_reno_on_lost]
    split <;> rfl
  · intro hrec
    simp only [quicly_cc_reno_on_lost]
    rw [if_pos hrec]

/-- C6 witness: a loss inside the recovery window on a concrete state. -/
theorem C6_witness :
    (quicly_cc_reno_on_lost ccRec6 5 3 9 1472).2 = (5, 3)
    ∧ (quicly_cc_reno_on_lost ccRec6 5 3 9 1472).1 = ccRec6 := by
  have h := C6_on_lost_ecn_always ccRec6 5 3 9 1472
  exact ⟨h.1, h.2 (by decide)⟩

/-- C8: the initial-window calculator equals clamped packets times clamped
payload, agrees with the minimum for any packet hint below the minimum, and is
monotone non-decreasing in both arguments (absent 32-bit wrap). -/
theorem C8_calc_initial_cwnd_props :
    (∀ p m, quicly_cc_calc_initial_cwnd p m
        = u32 (max p QUICLY_MIN_CWND * min m 1472))
    ∧ (∀ p m, p ≤ QUICLY_MIN_CWND →
        quicly_cc_calc_initial_cwnd p m
          = quicly_cc_calc_initial_cwnd QUICLY_MIN_CWND m)
    ∧ (∀ p q m n, p ≤ q → m ≤ n →
        max q QUICLY_MIN_CWND * min n 1472 < 4294967296 →
        quicly_cc_calc_initial_cwnd p m ≤ quicly_cc_calc_initial_cwnd q n) := by
  have hshape : ∀ p m, quicly_cc_calc_initial_cwnd p m
      = u32 (max p QUICLY_MIN_CWND * min m 1472) := by
    intro p m
    simp only [quicly_cc_calc_initial_cwnd, QUICLY_MIN_CWND]
    rw [show (if p < 2 then 2 else p) = max p 2 from by split <;> omega,
      show (if m > 1472 then 1472 else m) = min m 1472 from by split <;> omega]
  refine ⟨hshape, fun p m hp => ?_, fun p q m n hpq hmn hov => ?_⟩
  · rw [hshape, hshape]
    have hmx : max p QUICLY_MIN_CWND = max QUICLY_MIN_CWND QUICLY_MIN_CWND := by
      simp only [QUICLY_MIN_CWND] at hp ⊢
      omega
    rw [hmx]
  · rw [hshape, hshape]
    calc u32 (max p QUICLY_MIN_CWND * min m 1472)
        ≤ max p QUICLY_MIN_CWND * min m 1472 := u32_le _
      _ ≤ max q QUICLY_MIN_CWND * min n 1472 :=
          Nat.mul_le_mul (by omega) (by omega)
      _ = u32 (max q QUICLY_MIN_CWND * min n 1472) := (u32_eq_of_lt hov).symm

/-- C8 witness: the clamping identity, the below-minimum agreement, and
monotonicity at concrete arguments. -/
theorem C8_witness :
    quicly_cc_calc_initial_cwnd 1 1200 = quicly_cc_calc_initial_cwnd QUICLY_MIN_CWND 1200
    ∧ quicly_cc_calc_initial_cwnd 2 1200 ≤ quicly_cc_calc_initial_cwnd 3 1300
    ∧ quicly_cc_calc_initial_cwnd 10 1472 = u32 (max 10 QUICLY_MIN_CWND * min 1472 1472) := by
  have h := C8_calc_initial_cwnd_props
  exact ⟨h.2.1 1 1200 (by decide),
    h.2.2 2 3 1200 1300 (by decide) (by decide) (by decide),
    h.1 10 1472⟩

/-- C9: switching to Reno is a successful no-op when already Reno, fails with
state untouched when the active variant is unrecognized, and that unrecognized
case is the only failure. -/
theorem C9_on_switch_props (cc : CC) :
    (cc.type = CCType.reno → reno_on_switch cc = (cc, true))
    ∧ (cc.type = CCType.other → reno_on_switch cc = (cc, false))
    ∧ ((reno_on_switch cc).2 = false ↔ cc.type = CCType.other) := by
  refine ⟨fun h => ?_, fun h => ?_, ?_⟩
  · simp only [reno_on_switch, h]
  · simp only [reno_on_switch, h]
  · simp only [reno_on_switch]
    cases h : cc.type <;> simp [h]
    split <;> simp

/-- C9 witness: a fresh Reno state and an unrecognized-variant state. -/
theorem C9_witness :
    reno_on_switch (reno_reset 14720) = (reno_reset 14720, true)
    ∧ reno_on_switch ccOther = (ccOther, false) := by
  exact ⟨(C9_on_switch_props (reno_reset 14720)).1 rfl,
    (C9_on_switch_props ccOther).2.1 rfl⟩

/-- C10: `enter_jumpstart` is a no-op when `cwnd * 2 ≥ jump_cwnd`; otherwise it
sets exactly `enter_pn`, `cwnd` and the pacing multiplier (to the jumpstart
rate) and nothing else — in particular `cwnd_maximum` is not raised, so
`cwnd > cwnd_maximum` is possible while jumpstart is active. -/
theorem C10_enter_jumpstart_props (cc : CC) (jump_cwnd next_pn : Nat) :
    (jump_cwnd ≤ u32 (cc.cwnd * 2) → reno_enter_jumpstart cc jump_cwnd next_pn = cc)
    ∧ (u32 (cc.cwnd * 2) < jump_cwnd →
        reno_enter_jumpstart cc jump_cwnd next_pn
          = { cc with
                enter_pn := next_pn
                cwnd := jump_cwnd
                pacer_multiplier := pacerMult1 })
    ∧ (u32 (cc.cwnd * 2) < jump_cwnd → cc.cwnd_maximum < jump_cwnd →
        (reno_enter_jumpstart cc jump_cwnd next_pn).cwnd_maximum
          < (reno_enter_jumpstart cc jump_cwnd next_pn).cwnd) := by
  have hyes : ∀ h : u32 (cc.cwnd * 2) < jump_cwnd,
      reno_enter_jumpstart cc jump_cwnd next_pn
        = { cc with
              enter_pn := next_pn
              cwnd := jump_cwnd
              pacer_multiplier := pacerMult1 } := by
    intro h
    simp only [reno_enter_jumpstart]
    rw [if_neg (by omega)]
  refine ⟨fun h => ?_, hyes, fun h hmax => ?_⟩
  · simp only [reno_enter_jumpstart]
    rw [if_pos h]
  · rw [hyes h]
    exact hmax

/-- C10 witness: a jump that more than doubles the window and one that does
not, on a fresh state. -/
theorem C10_witness :
    reno_enter_jumpstart (reno_reset 14720) 30000 5
      = { reno_reset 14720 with
            enter_pn := 5
            cwnd := 30000
            pacer_multiplier := pacerMult1 }
    ∧ reno_enter_jumpstart (reno_reset 14720) 100 5 = reno_reset 14720
    ∧ (reno_enter_jumpstart (reno_reset 14720) 30000 5).cwnd_maximum
        < (reno_enter_jumpstart (reno_reset 14720) 30000 5).cwnd := by
  have h := C10_enter_jumpstart_props (reno_reset 14720) 30000 5
  have h2 := C10_enter_jumpstart_props (reno_reset 14720) 100 5
  exact ⟨h.2.1 (by decide), h2.1 (by decide), h.2.2 (by decide) (by decide)⟩


/-- Field-level characterization of `quicly_cc_reno_on_lost` on an actionable
loss (one with `lost_pn ≥ recovery_end`). -/
theorem on_lost_actionable (cc : CC) (bytes lost_pn next_pn mtu : Nat)
    (hrec : cc.recovery_end ≤ lost_pn) :
    (quicly_cc_reno_on_lost cc bytes lost_pn next_pn mtu).1.cwnd
        = renoLostCwnd cc lost_pn mtu
    ∧ (quicly_cc_reno_on_lost cc bytes lost_pn next_pn mtu).1.ssthresh
        = renoLostCwnd cc lost_pn mtu
    ∧ (quicly_cc_reno_on_lost cc bytes lost_pn next_pn mtu).1.num_loss_episodes
        = u32 (cc.num_loss_episodes + 1)
    ∧ (quicly_cc_reno_on_lost cc bytes lost_pn next_pn mtu).1.recovery_end
        = next_pn := by
  simp only [quicly_cc_reno_on_lost, renoLostCwnd]
  rw [if_neg (Nat.not_lt.mpr hrec)]
  split_ifs <;> simp_all

/-- The state is untouched by a loss inside the recovery window. -/
theorem on_lost_recovery_window (cc : CC) (bytes lost_pn next_pn mtu : Nat)
    (h : lost_pn < cc.recovery_end) :
    (quicly_cc_reno_on_lost cc bytes lost_pn next_pn mtu).1 = cc := by
  simp only [quicly_cc_reno_on_lost]
  rw [if_pos h]


/-- C1 counterexample: on this reachable state an actionable loss (lost_pn = 7
is at or above recovery_end, and the minimum floor is not binding) leaves cwnd
at 19999, not at the beta decrease 32200 of the previous cwnd 46000: the
jumpstart-restore branch falsifies the claimed decrease by the beta factor. -/
theorem C1_counterexample :
    ccC1.recovery_end ≤ 7
    ∧ ccC1.cwnd = 46000
    ∧ max (mulBeta ccC1.cwnd) (QUICLY_MIN_CWND * 1472) = 32200
    ∧ (quicly_cc_reno_on_lost ccC1 500 7 42 1472).1.cwnd = 19999
    ∧ (quicly_cc_reno_on_lost ccC1 500 7 42 1472).1.cwnd
        ≠ max (mulBeta ccC1.cwnd) (QUICLY_MIN_CWND * 1472) := by
  decide

/-- C1 amended: an actionable loss that does not take the jumpstart-restore
branch (`ssthresh` not at its sentinel, or `lost_pn` at or beyond `exit_pn`)
sets cwnd to the beta decrease floored at the minimum window — strictly below
the previous cwnd whenever that exceeded the minimum window — and sets
`ssthresh` to the new cwnd, increments `num_loss_episodes` by exactly 1, and
sets `recovery_end` to `next_pn`. -/
theorem C1_on_lost_new_episode (cc : CC) (bytes lost_pn next_pn mtu : Nat)
    (hrec : cc.recovery_end ≤ lost_pn)
    (hjs : ¬ (cc.ssthresh = UINT32_MAX ∧ lost_pn < cc.exit_pn))
    (hep : cc.num_loss_episodes + 1 < 4294967296)
    (hm : QUICLY_MIN_CWND * mtu < 4294967296) :
    (quicly_cc_reno_on_lost cc bytes lost_pn next_pn mtu).1.cwnd
        = max (mulBeta cc.cwnd) (QUICLY_MIN_CWND * mtu)
    ∧ (quicly_cc_reno_on_lost cc bytes lost_pn next_pn mtu).1.ssthresh
        = (quicly_cc_reno_on_lost cc bytes lost_pn next_pn mtu).1.cwnd
    ∧ (quicly_cc_reno_on_lost cc bytes lost_pn next_pn mtu).1.num_loss_episodes
        = cc.num_loss_episodes + 1
    ∧ (quicly_cc_reno_on_lost cc bytes lost_pn next_pn mtu).1.recovery_end = next_pn
    ∧ (QUICLY_MIN_CWND * mtu < cc.cwnd →
        (quicly_cc_reno_on_lost cc bytes lost_pn next_pn mtu).1.cwnd < cc.cwnd) := by
  obtain ⟨hcw, hst, hepq, hre⟩ := on_lost_actionable cc bytes lost_pn next_pn mtu hrec
  have hcw2 : (quicly_cc_reno_on_lost cc bytes lost_pn next_pn mtu).1.cwnd
      = max (mulBeta cc.cwnd) (QUICLY_MIN_CWND * mtu) := by
    rw [hcw]
    simp only [renoLostCwnd]
    rw [if_neg hjs, u32_eq_of_lt hm, if_lt_eq_max]
  refine ⟨hcw2, by rw [hst, hcw], by rw [hepq, u32_eq_of_lt hep], hre, fun hlt => ?_⟩
  rw [hcw2]
  simp only [mulBeta] at *
  omega

/-- C1 witness: the first loss on a fresh instance with cwnd 14720. -/
theorem C1_witness :
    (quicly_cc_reno_on_lost (reno_reset 14720) 100 0 5 1472).1.cwnd = 10304
    ∧ (quicly_cc_reno_on_lost (reno_reset 14720) 100 0 5 1472).1.ssthresh = 10304
    ∧ (quicly_cc_reno_on_lost (reno_reset 14720) 100 0 5 1472).1.num_loss_episodes = 1
    ∧ (quicly_cc_reno_on_lost (reno_reset 14720) 100 0 5 1472).1.recovery_end = 5
    ∧ (quicly_cc_reno_on_lost (reno_reset 14720) 100 0 5 1472).1.cwnd < 14720 := by
  have h := C1_on_lost_new_episode (reno_reset 14720) 100 0 5 1472
    (by decide) (by decide) (by decide) (by decide)
  refine ⟨by rw [h.1]; decide, by rw [h.2.1, h.1]; decide,
    by rw [h.2.2.1]; decide, h.2.2.2.1, ?_⟩
  exact h.2.2.2.2 (by decide)


/-- C3 counterexample: a loss taking the jumpstart-restore branch leaves cwnd
at 9999, not at the 10000 bytes acknowledged during the jumpstart interval,
although the minimum-window floor is not binding: the truncating division and
multiplication by beta = 7/10 lose one byte. -/
theorem C3_counterexample :
    ccC3.ssthresh = UINT32_MAX
    ∧ ccC3.recovery_end ≤ 7
    ∧ 7 < ccC3.exit_pn
    ∧ ccC3.bytes_acked = 10000
    ∧ (quicly_cc_reno_on_lost ccC3 100 7 42 1472).1.cwnd = 9999
    ∧ QUICLY_MIN_CWND * 1472 ≤ 9999
    ∧ (quicly_cc_reno_on_lost ccC3 100 7 42 1472).1.cwnd ≠ ccC3.bytes_acked := by
  decide

/-- C3 amended: with beta the exact rational 7/10, a loss in unconfirmed slow
start before the jumpstart exit boundary leaves cwnd equal to `bytes_acked`
when `bytes_acked` is divisible by 7 and to `bytes_acked - 1` otherwise,
subject to the minimum-window floor: dividing by beta and then applying the
multiplicative decrease reproduces `bytes_acked` only up to one byte of
truncation. -/
theorem C3_jumpstart_restore (cc : CC) (bytes lost_pn next_pn mtu : Nat)
    (hss : cc.ssthresh = UINT32_MAX)
    (hrec : cc.recovery_end ≤ lost_pn)
    (hjs : lost_pn < cc.exit_pn)
    (hba : cc.bytes_acked * 10 / 7 < 4294967296)
    (hm : QUICLY_MIN_CWND * mtu < 4294967296) :
    (quicly_cc_reno_on_lost cc bytes lost_pn next_pn mtu).1.cwnd
      = max (if cc.bytes_acked % 7 = 0 then cc.bytes_acked else cc.bytes_acked - 1)
            (QUICLY_MIN_CWND * mtu) := by
  obtain ⟨hcw, -, -, -⟩ := on_lost_actionable cc bytes lost_pn next_pn mtu hrec
  have hpos : cc.ssthresh = UINT32_MAX ∧ lost_pn < cc.exit_pn := ⟨hss, hjs⟩
  rw [hcw]
  simp only [renoLostCwnd]
  rw [if_pos hpos, beta_roundtrip _ hba, u32_eq_of_lt hm, if_lt_eq_max]

/-- C3 witness: bytes_acked = 14000 is a multiple of 7, so the restored cwnd
is exactly 14000. -/
theorem C3_witness :
    (quicly_cc_reno_on_lost { reno_reset 14720 with exit_pn := 40, bytes_acked := 14000 }
        100 7 42 1472).1.cwnd = 14000 := by
  have h := C3_jumpstart_restore
    { reno_reset 14720 with exit_pn := 40, bytes_acked := 14000 } 100 7 42 1472
    (by decide) (by decide) (by decide) (by decide) (by decide)
  rw [h]
  decide

/-- Outside recovery, `reno_on_acked` is the composition of the jumpstart
accounting, jumpstart exit, and window growth steps. -/
theorem reno_on_acked_phases (cc : CC) (bytes largest_acked inflight next_pn mtu : Nat) :
    reno_on_acked cc bytes largest_acked inflight next_pn mtu
      = if largest_acked < cc.recovery_end then
          (if largest_acked < cc.exit_pn then
            { cc with cwnd := u32 (cc.cwnd + bytes) }
          else
            cc)
        else
          renoGrow
            (jumpstartExitStep (jumpstartAccount cc bytes largest_acked)
              inflight next_pn largest_acked)
            bytes mtu := rfl

/-- Jumpstart accounting changes at most `bytes_acked`. -/
theorem jumpstartAccount_fields (cc : CC) (bytes largest_acked : Nat) :
    (jumpstartAccount cc bytes largest_acked).cwnd = cc.cwnd
    ∧ (jumpstartAccount cc bytes largest_acked).ssthresh = cc.ssthresh
    ∧ (jumpstartAccount cc bytes largest_acked).stash = cc.stash
    ∧ (jumpstartAccount cc bytes largest_acked).pacer_multiplier = cc.pacer_multiplier
    ∧ (jumpstartAccount cc bytes largest_acked).enter_pn = cc.enter_pn
    ∧ (jumpstartAccount cc bytes largest_acked).cwnd_maximum = cc.cwnd_maximum
    ∧ (jumpstartAccount cc bytes largest_acked).recovery_end = cc.recovery_end := by
  unfold jumpstartAccount
  split <;> exact ⟨rfl, rfl, rfl, rfl, rfl, rfl, rfl⟩

/-- Jumpstart accounting is the identity outside the accounting interval. -/
theorem jumpstartAccount_eq_of_not (cc : CC) (bytes largest_acked : Nat)
    (h : ¬ (cc.enter_pn ≤ largest_acked ∧ largest_acked < cc.exit_pn)) :
    jumpstartAccount cc bytes largest_acked = cc := by
  unfold jumpstartAccount
  rw [if_neg h]

/-- The jumpstart exit step is the identity unless the acknowledgment arrives
at the jumpstart pacing rate for a packet at or past `enter_pn`. -/
theorem jumpstartExitStep_eq_of_not (cc : CC) (inflight next_pn largest_acked : Nat)
    (h : ¬ (cc.pacer_multiplier = pacerMult1 ∧ cc.enter_pn ≤ largest_acked)) :
    jumpstartExitStep cc inflight next_pn largest_acked = cc := by
  unfold jumpstartExitStep
  rw [if_neg h]

/-- Growth in slow start: credit the acknowledged bytes, track the maximum. -/
theorem renoGrow_slow (cc : CC) (bytes mtu : Nat) (h : cc.cwnd < cc.ssthresh) :
    renoGrow cc bytes mtu
      = { cc with
            cwnd := u32 (cc.cwnd + bytes)
            cwnd_maximum := max cc.cwnd_maximum (u32 (cc.cwnd + bytes)) } := by
  simp only [renoGrow]
  rw [if_pos h, if_lt_eq_max]

/-- Congestion avoidance while the stash stays below cwnd: accumulate only. -/
theorem renoGrow_ca_small (cc : CC) (bytes mtu : Nat)
    (h1 : ¬ cc.cwnd < cc.ssthresh) (h2 : u32 (cc.stash + bytes) < cc.cwnd) :
    renoGrow cc bytes mtu = { cc with stash := u32 (cc.stash + bytes) } := by
  simp only [renoGrow]
  rw [if_neg h1, if_pos h2]

/-- Congestion avoidance when the stash reaches cwnd: grow by one segment per
full window acknowledged, keep the remainder. -/
theorem renoGrow_ca_big (cc : CC) (bytes mtu : Nat)
    (h1 : ¬ cc.cwnd < cc.ssthresh) (h2 : ¬ u32 (cc.stash + bytes) < cc.cwnd) :
    renoGrow cc bytes mtu
      = { cc with
            stash := u32sub (u32 (cc.stash + bytes))
                      (u32 (u32 (cc.stash + bytes) / cc.cwnd * cc.cwnd))
            cwnd := u32 (cc.cwnd + u32 (u32 (cc.stash + bytes) / cc.cwnd * mtu))
            cwnd_maximum := max cc.cwnd_maximum
                      (u32 (cc.cwnd + u32 (u32 (cc.stash + bytes) / cc.cwnd * mtu))) } := by
  simp only [renoGrow]
  rw [if_neg h1, if_neg h2, if_lt_eq_max]

/-- C4 counterexample: from an instance initialized with the calculated
initial window 14720 (which satisfies the minimum-window invariant), entering
jumpstart and then processing the first jumpstart acknowledgment with only 100
bytes in flight leaves cwnd = 200, below the minimum window 2 * 1472: the
jumpstart-exit step of `on_acked` violates the claimed invariant. -/
theorem C4_counterexample :
    (reno_reset (quicly_cc_calc_initial_cwnd 10 1472)).cwnd = 14720
    ∧ QUICLY_MIN_CWND * 1472 ≤ 14720
    ∧ ccC4.cwnd = 200
    ∧ ccC4.cwnd < QUICLY_MIN_CWND * 1472 := by
  decide

/-- C4 amended: the minimum-window lower bound on cwnd is preserved by
`on_lost`, by `enter_jumpstart`, by `on_switch` (provided `cwnd_initial` also
satisfies it), and by every `on_acked` call that does not take the
jumpstart-exit step, all absent 32-bit wrap; the jumpstart-exit step itself
may set cwnd to an `inflight` below the minimum window. -/
theorem C4_min_cwnd_preservation (cc : CC)
    (bytes largest_acked inflight next_pn jump_cwnd lost_pn mtu : Nat)
    (hm : QUICLY_MIN_CWND * mtu < 4294967296)
    (hcw : QUICLY_MIN_CWND * mtu ≤ cc.cwnd) :
    QUICLY_MIN_CWND * mtu ≤ (quicly_cc_reno_on_lost cc bytes lost_pn next_pn mtu).1.cwnd
    ∧ (cc.cwnd * 2 < 4294967296 →
        QUICLY_MIN_CWND * mtu ≤ (reno_enter_jumpstart cc jump_cwnd next_pn).cwnd)
    ∧ (QUICLY_MIN_CWND * mtu ≤ cc.cwnd_initial →
        QUICLY_MIN_CWND * mtu ≤ (reno_on_switch cc).1.cwnd)
    ∧ (¬ (cc.pacer_multiplier = pacerMult1 ∧ cc.enter_pn ≤ largest_acked) →
        cc.cwnd + bytes < 4294967296 →
        cc.cwnd + (cc.stash + bytes) / cc.cwnd * mtu < 4294967296 →
        QUICLY_MIN_CWND * mtu ≤ (reno_on_acked cc bytes largest_acked inflight next_pn mtu).cwnd) := by
  refine ⟨?_, fun hov => ?_, fun hinit => ?_, fun hjx hov1 hov3 => ?_⟩
  · by_cases hr : lost_pn < cc.recovery_end
    · rw [on_lost_recovery_window cc bytes lost_pn next_pn mtu hr]
      exact hcw
    · rw [(on_lost_actionable cc bytes lost_pn next_pn mtu (Nat.not_lt.mp hr)).1]
      simp only [renoLostCwnd, u32_eq_of_lt hm]
      simp only [QUICLY_MIN_CWND] at hm hcw ⊢
      split_ifs <;> omega
  · simp only [reno_enter_jumpstart]
    split_ifs with h
    · exact hcw
    · have h2 : u32 (cc.cwnd * 2) = cc.cwnd * 2 := u32_eq_of_lt hov
      show QUICLY_MIN_CWND * mtu ≤ jump_cwnd
      simp only [QUICLY_MIN_CWND] at hcw ⊢
      omega
  · cases htype : cc.type
    case reno => simp only [reno_on_switch, htype]; exact hcw
    case pico => simp only [reno_on_switch, htype]; exact hcw
    case cubic =>
      simp only [reno_on_switch, htype]
      split_ifs
      · exact hcw
      · exact hinit
    case other => simp only [reno_on_switch, htype]; exact hcw
  · rw [reno_on_acked_phases]
    by_cases hla : largest_acked < cc.recovery_end
    · rw [if_pos hla]
      split_ifs
      · show QUICLY_MIN_CWND * mtu ≤ u32 (cc.cwnd + bytes)
        rw [u32_eq_of_lt hov1]
        omega
      · exact hcw
    · rw [if_neg hla]
      have hacc := jumpstartAccount_fields cc bytes largest_acked
      have hjx2 : ¬ ((jumpstartAccount cc bytes largest_acked).pacer_multiplier = pacerMult1
          ∧ (jumpstartAccount cc bytes largest_acked).enter_pn ≤ largest_acked) := by
        rw [hacc.2.2.2.1, hacc.2.2.2.2.1]
        exact hjx
      rw [jumpstartExitStep_eq_of_not _ _ _ _ hjx2]
      by_cases hss : (jumpstartAccount cc bytes largest_acked).cwnd
          < (jumpstartAccount cc bytes largest_acked).ssthresh
      · rw [renoGrow_slow _ _ _ hss]
        show QUICLY_MIN_CWND * mtu
            ≤ u32 ((jumpstartAccount cc bytes largest_acked).cwnd + bytes)
        rw [hacc.1, u32_eq_of_lt hov1]
        omega
      · by_cases hsm : u32 ((jumpstartAccount cc bytes largest_acked).stash + bytes)
            < (jumpstartAccount cc bytes largest_acked).cwnd
        · rw [renoGrow_ca_small _ _ _ hss hsm]
          show QUICLY_MIN_CWND * mtu ≤ (jumpstartAccount cc bytes largest_acked).cwnd
          rw [hacc.1]
          exact hcw
        · rw [renoGrow_ca_big _ _ _ hss hsm]
          show QUICLY_MIN_CWND * mtu
              ≤ u32 ((jumpstartAccount cc bytes largest_acked).cwnd
                  + u32 (u32 ((jumpstartAccount cc bytes largest_acked).stash + bytes)
                      / (jumpstartAccount cc bytes largest_acked).cwnd * mtu))
          rw [hacc.1, hacc.2.2.1]
          have hk1 : u32 (cc.stash + bytes) / cc.cwnd ≤ (cc.stash + bytes) / cc.cwnd :=
            Nat.div_le_div_right (u32_le _)
          have hk2 : u32 (cc.stash + bytes) / cc.cwnd * mtu
              ≤ (cc.stash + bytes) / cc.cwnd * mtu :=
            Nat.mul_le_mul_right _ hk1
          have hk3 : u32 (cc.stash + bytes) / cc.cwnd * mtu < 4294967296 :=
            lt_of_le_of_lt hk2 (lt_of_le_of_lt (Nat.le_add_left _ _) hov3)
          have hk4 : cc.cwnd + u32 (cc.stash + bytes) / cc.cwnd * mtu < 4294967296 := by
            have := Nat.add_le_add_left hk2 cc.cwnd
            omega
          rw [u32_eq_of_lt hk3, u32_eq_of_lt hk4]
          exact le_trans hcw (Nat.le_add_right _ _)

/-- C4 witness: all four preserved operations applied to a fresh instance. -/
theorem C4_witness :
    QUICLY_MIN_CWND * 1472 ≤ (quicly_cc_reno_on_lost (reno_reset 14720) 100 0 5 1472).1.cwnd
    ∧ QUICLY_MIN_CWND * 1472 ≤ (reno_enter_jumpstart (reno_reset 14720) 30000 5).cwnd
    ∧ QUICLY_MIN_CWND * 1472 ≤ (reno_on_switch (reno_reset 14720)).1.cwnd
    ∧ QUICLY_MIN_CWND * 1472 ≤ (reno_on_acked (reno_reset 14720) 100 0 200 1 1472).cwnd := by
  have h := C4_min_cwnd_preservation (reno_reset 14720) 100 0 200 5 30000 0 1472
    (by decide) (by decide)
  exact ⟨h.1, h.2.1 (by decide), h.2.2.1 (by decide),
    h.2.2.2 (by decide) (by decide) (by decide)⟩

/-- C7 counterexample: on a reachable congestion-avoidance state with
stash = 10000 < cwnd = 10304, an actionable loss shrinks cwnd to 7212 without
touching stash, so the claimed invariant stash < cwnd fails in the resulting
quiescent state: `on_lost` does not preserve it. -/
theorem C7_counterexample :
    ccC7.stash = 10000
    ∧ ccC7.cwnd = 10304
    ∧ ccC7.stash < ccC7.cwnd
    ∧ ccC7.recovery_end ≤ 5
    ∧ (quicly_cc_reno_on_lost ccC7 100 5 9 1472).1.stash = 10000
    ∧ (quicly_cc_reno_on_lost ccC7 100 5 9 1472).1.cwnd = 7212
    ∧ ¬ (quicly_cc_reno_on_lost ccC7 100 5 9 1472).1.stash
        < (quicly_cc_reno_on_lost ccC7 100 5 9 1472).1.cwnd := by
  decide

/-- C7 amended: stash < cwnd is established by reset and preserved by
`enter_jumpstart` and by every `on_acked` call that does not take the
jumpstart-exit step (absent 32-bit wrap); `on_lost`, which shrinks cwnd
without touching stash, does not preserve it. -/
theorem C7_stash_invariant (cc : CC)
    (bytes largest_acked inflight next_pn jump_cwnd mtu initcwnd : Nat)
    (hinv : cc.stash < cc.cwnd) :
    (¬ (cc.pacer_multiplier = pacerMult1 ∧ cc.enter_pn ≤ largest_acked) →
      cc.cwnd + bytes < 4294967296 →
      cc.stash + bytes < 4294967296 →
      cc.cwnd + (cc.stash + bytes) / cc.cwnd * mtu < 4294967296 →
      (reno_on_acked cc bytes largest_acked inflight next_pn mtu).stash
        < (reno_on_acked cc bytes largest_acked inflight next_pn mtu).cwnd)
    ∧ (cc.cwnd * 2 < 4294967296 →
        (reno_enter_jumpstart cc jump_cwnd next_pn).stash
          < (reno_enter_jumpstart cc jump_cwnd next_pn).cwnd)
    ∧ (0 < initcwnd → (reno_reset initcwnd).stash < (reno_reset initcwnd).cwnd) := by
  refine ⟨fun hjx hov1 hov2 hov3 => ?_, fun hov => ?_, fun hpos => hpos⟩
  · rw [reno_on_acked_phases]
    by_cases hla : largest_acked < cc.recovery_end
    · rw [if_pos hla]
      split_ifs
      · show cc.stash < u32 (cc.cwnd + bytes)
        rw [u32_eq_of_lt hov1]
        omega
      · exact hinv
    · rw [if_neg hla]
      have hacc := jumpstartAccount_fields cc bytes largest_acked
      have hjx2 : ¬ ((jumpstartAccount cc bytes largest_acked).pacer_multiplier = pacerMult1
          ∧ (jumpstartAccount cc bytes largest_acked).enter_pn ≤ largest_acked) := by
        rw [hacc.2.2.2.1, hacc.2.2.2.2.1]
        exact hjx
      rw [jumpstartExitStep_eq_of_not _ _ _ _ hjx2]
      by_cases hss : (jumpstartAccount cc bytes largest_acked).cwnd
          < (jumpstartAccount cc bytes largest_acked).ssthresh
      · rw [renoGrow_slow _ _ _ hss]
        show (jumpstartAccount cc bytes largest_acked).stash
            < u32 ((jumpstartAccount cc bytes largest_acked).cwnd + bytes)
        rw [hacc.1, hacc.2.2.1, u32_eq_of_lt hov1]
        omega
      · by_cases hsm : u32 ((jumpstartAccount cc bytes largest_acked).stash + bytes)
            < (jumpstartAccount cc bytes largest_acked).cwnd
        · rw [renoGrow_ca_small _ _ _ hss hsm]
          show u32 ((jumpstartAccount cc bytes largest_acked).stash + bytes)
              < (jumpstartAccount cc bytes largest_acked).cwnd
          exact hsm
        · rw [renoGrow_ca_big _ _ _ hss hsm]
          show u32sub (u32 ((jumpstartAccount cc bytes largest_acked).stash + bytes))
                (u32 (u32 ((jumpstartAccount cc bytes largest_acked).stash + bytes)
                    / (jumpstartAccount cc bytes largest_acked).cwnd
                    * (jumpstartAccount cc bytes largest_acked).cwnd))
              < u32 ((jumpstartAccount cc bytes largest_acked).cwnd
                  + u32 (u32 ((jumpstartAccount cc bytes largest_acked).stash + bytes)
                      / (jumpstartAccount cc bytes largest_acked).cwnd * mtu))
          rw [hacc.1, hacc.2.2.1, u32_eq_of_lt hov2]
          have hc : 0 < cc.cwnd := lt_of_le_of_lt (Nat.zero_le _) hinv
          have hkc : (cc.stash + bytes) / cc.cwnd * cc.cwnd ≤ cc.stash + bytes :=
            Nat.div_mul_le_self _ _
          have hkm : (cc.stash + bytes) / cc.cwnd * mtu < 4294967296 :=
            lt_of_le_of_lt (Nat.le_add_left _ _) hov3
          rw [u32_eq_of_lt (lt_of_le_of_lt hkc hov2), u32sub_eq hov2 hkc,
            u32_eq_of_lt hkm, u32_eq_of_lt hov3]
          have hmod : cc.stash + bytes - (cc.stash + bytes) / cc.cwnd * cc.cwnd
              = (cc.stash + bytes) % cc.cwnd := by
            have hdm := Nat.div_add_mod (cc.stash + bytes) cc.cwnd
            have hcm : cc.cwnd * ((cc.stash + bytes) / cc.cwnd)
                = (cc.stash + bytes) / cc.cwnd * cc.cwnd := Nat.mul_comm _ _
            omega
          rw [hmod]
          exact lt_of_lt_of_le (Nat.mod_lt _ hc) (Nat.le_add_right _ _)
  · simp only [reno_enter_jumpstart]
    split_ifs with h
    · exact hinv
    · show cc.stash < jump_cwnd
      have h2 : u32 (cc.cwnd * 2) = cc.cwnd * 2 := u32_eq_of_lt hov
      omega

/-- C7 witness: the preserved operations applied to concrete states. -/
theorem C7_witness :
    (reno_on_acked (reno_reset 14720) 100 0 200 1 1472).stash
      < (reno_on_acked (reno_reset 14720) 100 0 200 1 1472).cwnd
    ∧ (reno_enter_jumpstart (reno_reset 14720) 30000 1).stash
      < (reno_enter_jumpstart (reno_reset 14720) 30000 1).cwnd
    ∧ (reno_reset 100).stash < (reno_reset 100).cwnd := by
  have h := C7_stash_invariant (reno_reset 14720) 100 0 200 1 30000 1472 100 (by decide)
  exact ⟨h.1 (by decide) (by decide) (by decide) (by decide),
    h.2.1 (by decide), h.2.2 (by decide)⟩

/-- C2: outside recovery and with jumpstart inactive, (i) a slow-start
acknowledgment adds exactly `bytes` to cwnd and keeps `cwnd_maximum` at the
running maximum, (ii) over any sequence of such slow-start acknowledgments
cwnd grows by exactly the total bytes B, and (iii) a congestion-avoidance
acknowledgment that brings the stash to `k` full windows plus remainder
`r < cwnd` (k ≥ 1) adds exactly `k * max_udp_payload_size` to cwnd and leaves
the stash at `r`. -/
theorem C2_on_acked_growth (mtu : Nat) :
    (∀ cc e, SlowStartStep cc e →
        (reno_on_acked cc e.bytes e.largest_acked e.inflight e.next_pn mtu).cwnd
            = cc.cwnd + e.bytes
        ∧ (reno_on_acked cc e.bytes e.largest_acked e.inflight e.next_pn mtu).cwnd_maximum
            = max cc.cwnd_maximum (cc.cwnd + e.bytes))
    ∧ (∀ evs cc, SlowStartRun mtu cc evs →
        (runAcked mtu cc evs).cwnd = cc.cwnd + (evs.map AckEv.bytes).sum)
    ∧ (∀ cc bytes largest_acked inflight next_pn k r,
        cc.recovery_end ≤ largest_acked →
        cc.pacer_multiplier ≠ pacerMult1 →
        ¬ (cc.enter_pn ≤ largest_acked ∧ largest_acked < cc.exit_pn) →
        cc.ssthresh ≤ cc.cwnd →
        cc.stash + bytes = k * cc.cwnd + r →
        r < cc.cwnd →
        1 ≤ k →
        cc.stash + bytes < 4294967296 →
        cc.cwnd + k * mtu < 4294967296 →
        (reno_on_acked cc bytes largest_acked inflight next_pn mtu).cwnd
            = cc.cwnd + k * mtu
        ∧ (reno_on_acked cc bytes largest_acked inflight next_pn mtu).stash = r
        ∧ r < cc.cwnd) := by
  have hsingle : ∀ cc e, SlowStartStep cc e →
      (reno_on_acked cc e.bytes e.largest_acked e.inflight e.next_pn mtu).cwnd
          = cc.cwnd + e.bytes
      ∧ (reno_on_acked cc e.bytes e.largest_acked e.inflight e.next_pn mtu).cwnd_maximum
          = max cc.cwnd_maximum (cc.cwnd + e.bytes) := by
    intro cc e hstep
    obtain ⟨h1, h2, h3, h4, h5⟩ := hstep
    rw [reno_on_acked_slow_start cc e.bytes e.largest_acked e.inflight e.next_pn mtu
      h1 h2 h3 h4 h5]
    exact ⟨rfl, rfl⟩
  refine ⟨hsingle, ?_, ?_⟩
  · intro evs
    induction evs with
    | nil =>
        intro cc _
        simp [runAcked]
    | cons e es ih =>
        intro cc hrun
        obtain ⟨hstep, hrun2⟩ := hrun
        simp only [runAcked, List.map_cons, List.sum_cons]
        rw [ih _ hrun2, (hsingle cc e hstep).1]
        omega
  · intro cc bytes largest_acked inflight next_pn k r
      h1 h2 h3 h4 hdec hr hk hovs hovc
    have hjx : ¬ (cc.pacer_multiplier = pacerMult1 ∧ cc.enter_pn ≤ largest_acked) :=
      fun hc => h2 hc.1
    rw [reno_on_acked_phases, if_neg (Nat.not_lt.mpr h1),
      jumpstartAccount_eq_of_not _ _ _ h3, jumpstartExitStep_eq_of_not _ _ _ _ hjx]
    have hc : 0 < cc.cwnd := lt_of_le_of_lt (Nat.zero_le _) hr
    have hnss : ¬ cc.cwnd < cc.ssthresh := Nat.not_lt.mpr h4
    have hseq : u32 (cc.stash + bytes) = cc.stash + bytes := u32_eq_of_lt hovs
    have hck : cc.cwnd ≤ k * cc.cwnd := Nat.le_mul_of_pos_left _ hk
    have hge : ¬ u32 (cc.stash + bytes) < cc.cwnd := by
      rw [hseq]
      omega
    rw [renoGrow_ca_big _ _ _ hnss hge]
    have hcount : u32 (cc.stash + bytes) / cc.cwnd = k := by
      rw [hseq, hdec, Nat.add_comm, Nat.mul_comm k cc.cwnd,
        Nat.add_mul_div_left _ _ hc, Nat.div_eq_of_lt hr, Nat.zero_add]
    have hkm : k * mtu < 4294967296 := lt_of_le_of_lt (Nat.le_add_left _ _) hovc
    have hkc : k * cc.cwnd ≤ cc.stash + bytes := by
      rw [hdec]
      exact Nat.le_add_right _ _
    refine ⟨?_, ?_, hr⟩
    · show u32 (cc.cwnd + u32 (u32 (cc.stash + bytes) / cc.cwnd * mtu)) = cc.cwnd + k * mtu
      rw [hcount, u32_eq_of_lt hkm, u32_eq_of_lt hovc]
    · show u32sub (u32 (cc.stash + bytes))
          (u32 (u32 (cc.stash + bytes) / cc.cwnd * cc.cwnd)) = r
      rw [hcount, hseq, u32_eq_of_lt (lt_of_le_of_lt hkc hovs), u32sub_eq hovs hkc, hdec]
      omega

/-- C2 witness: the three-acknowledgment slow-start scenario yields cwnd
19136, and a congestion-avoidance acknowledgment crossing two full windows
adds two segments and leaves the remainder stashed. -/
theorem C2_witness :
    (runAcked 1472 (reno_reset 14720) evsC2).cwnd = 19136
    ∧ (reno_on_acked ccC2 12000 0 21000 1 1472).cwnd = 10304 + 2 * 1472
    ∧ (reno_on_acked ccC2 12000 0 21000 1 1472).stash = 392 := by
  have h := C2_on_acked_growth 1472
  have hca := h.2.2 ccC2 12000 0 21000 1 2 392 (by decide) (by decide) (by decide)
    (by decide) (by decide) (by decide) (by decide) (by decide) (by decide)
  have hss := h.2.1 evsC2 (reno_reset 14720) (by decide)
  exact ⟨by rw [hss]; decide, hca.1, hca.2.1⟩
